import Mathlib

/-!
Shallow embedding of the offline-first sync engine of
`backend-interview-challenge` (src/services/syncService.ts and the task
service) and proofs about it.

Timestamps are modelled as natural numbers (milliseconds since epoch, the
value of `new Date(x).getTime()`); SQLite rows become Lean structures and
tables become lists of rows; every SQL statement issued by the source is
given an explicit pure semantics on that table state.  Fallible effects
(database calls that may throw, the HTTP transport) are modelled with
`Except`, and a JavaScript `try/catch` becomes a `match` on the `Except`
value of the translated try-block.
-/

namespace SyncEngine

/-- A row of the `tasks` table (the `Task` interface of `src/types`). -/
structure Task where
  id : String
  title : String
  description : Option String
  completed : Bool
  created_at : Nat
  updated_at : Nat
  is_deleted : Bool
  sync_status : String
  server_id : Option String
  last_synced_at : Option Nat
deriving DecidableEq, Repr

/-- A partial task (`Partial<Task>` restricted to the fields the sync code
ever reads or writes): `none` models an absent/undefined property. -/
structure PartialTask where
  title : Option String := none
  description : Option (Option String) := none
  completed : Option Bool := none
  is_deleted : Option Bool := none
  server_id : Option String := none
deriving DecidableEq, Repr

/-- A row of the `sync_queue` table.  The serialized `data` payload is
modelled as the task snapshot itself (serialization is invertible and never
inspected structurally by the code under study). -/
structure SyncQueueItem where
  id : String
  task_id : String
  operation : String
  data : Option Task
  created_at : Nat
  retry_count : Nat
  error_message : Option String
deriving DecidableEq, Repr

/-- The two mutable tables. -/
structure DBState where
  tasks : List Task
  sync_queue : List SyncQueueItem
deriving DecidableEq, Repr

/-- One error entry of a `SyncResult`. -/
structure SyncErrorEntry where
  task_id : String
  operation : String
  error : String
  timestamp : Nat
deriving DecidableEq, Repr

/-- The structured result returned by `sync()`. -/
structure SyncResult where
  success : Bool
  synced_items : Nat
  failed_items : Nat
  errors : List SyncErrorEntry
deriving DecidableEq, Repr

/-- One item of the batch endpoint's response. -/
structure ProcessedItem where
  client_id : String
  server_id : Option String
  status : String
  resolved_data : Option PartialTask
  error : Option String
deriving DecidableEq, Repr

/-- The batch endpoint's response body. -/
structure BatchSyncResponse where
  processed_items : List ProcessedItem
deriving DecidableEq, Repr

/-- `private maxRetries: number = 3` in `SyncService`. -/
def maxRetries : Nat := 3

/-- `_resolveConflict(localTask, serverTask)`: last-write-wins on
`updated_at`, returning the server task when the timestamps are equal.
Translated from src/services/syncService.ts lines 181-199 (the `console.log`
calls are side-effect free on the result and are dropped). -/
def resolveConflict (localTask serverTask : Task) : Task :=
  if localTask.updated_at > serverTask.updated_at then
    localTask
  else if serverTask.updated_at > localTask.updated_at then
    serverTask
  else
    serverTask

/-- The distinct `db.run` statements issued by `SyncService`, with their
bound parameters.  `updateTaskSyncStatus` carries the columns the
dynamically-built UPDATE of `updateSyncStatus` ends up setting
(`none` = column not in the SET list). -/
inductive DbRun where
  | updateTaskSyncStatus (taskId : String) (status : String)
      (serverId : Option String) (lastSynced : Option Nat)
  | deleteFromQueue (taskId : String)
  | updateQueueRetry (entryId : String) (retry : Nat) (msg : String)
  | setTaskStatus (taskId : String) (status : String)
deriving DecidableEq, Repr

/-- The `db.get` queries issued by `getSyncStatus`. -/
inductive DbGet where
  | pendingCount
  | lastSynced
  | queueSize
deriving DecidableEq, Repr

/-- Pure semantics of each `db.run` statement on the table state. -/
def applyRun : DbRun → DBState → DBState
  | .updateTaskSyncStatus taskId status serverId lastSynced, s =>
      { s with tasks := s.tasks.map fun t =>
          if t.id = taskId then
            { t with
              sync_status := status,
              last_synced_at :=
                match lastSynced with
                | some v => some v
                | none => t.last_synced_at,
              server_id :=
                match serverId with
                | some v => some v
                | none => t.server_id }
          else t }
  | .deleteFromQueue taskId, s =>
      { s with sync_queue := s.sync_queue.filter fun e => !(e.task_id = taskId : Bool) }
  | .updateQueueRetry entryId retry msg, s =>
      { s with sync_queue := s.sync_queue.map fun e =>
          if e.id = entryId then
            { e with retry_count := retry, error_message := some msg }
          else e }
  | .setTaskStatus taskId status, s =>
      { s with tasks := s.tasks.map fun t =>
          if t.id = taskId then { t with sync_status := status } else t }

/-- The environment a sync cycle runs in: configuration, the wall clock, the
HTTP transport, and a fault oracle for each kind of database call (a `some`
fault means that call throws with that message; `none` means it succeeds
with its SQL semantics). -/
structure Env where
  batchSize : Nat
  now : Nat
  post : List SyncQueueItem → Except String BatchSyncResponse
  health : Except String Unit
  allFault : Option String
  runFault : DbRun → Option String
  getFault : DbGet → Option String

/-- `getSyncQueueItems`: `SELECT * FROM sync_queue WHERE retry_count < ?
ORDER BY created_at ASC` with `? = maxRetries`, rows mapped back to items
(the row/item mapping is the identity in this model). -/
def getSyncQueueItems (s : DBState) : List SyncQueueItem :=
  (s.sync_queue.filter fun e => e.retry_count < maxRetries).mergeSort
    fun a b => a.created_at ≤ b.created_at

/-- The batch partitioning of the dispatch loop
(`for (let i = 0; i < n; i += batchSize) slice(i, i + batchSize)`).
Total also at `n = 0` (where the source loop would not terminate) by
returning no batches; every claim about batching assumes `0 < n`. -/
def toBatches (n : Nat) (l : List SyncQueueItem) : List (List SyncQueueItem) :=
  if h : l = [] ∨ n = 0 then []
  else l.take n :: toBatches n (l.drop n)
termination_by l.length
decreasing_by
  simp only [not_or] at h
  rw [List.length_drop]
  exact Nat.sub_lt (List.length_pos.mpr h.1) (Nat.pos_of_ne_zero h.2)

/-- The mutable state a sync cycle threads: the database, the `result`
object being built, and the trace of batches posted to the network (used to
state "no network call" properties). -/
structure St where
  db : DBState
  res : SyncResult
  posted : List (List SyncQueueItem)
deriving Repr

/-- A `db.run` call: throws per the fault oracle, otherwise applies the
statement's SQL semantics.  A thrown error carries the state at the throw
point (JavaScript exceptions do not roll back earlier writes). -/
def dbRunE (env : Env) (c : DbRun) (st : St) : Except (String × St) St :=
  match env.runFault c with
  | some m => .error (m, st)
  | none => .ok { st with db := applyRun c st.db }

/-- The merged `serverData` argument built at the call site of
`updateSyncStatus` in `sync()`: `{ server_id: item.server_id,
...item.resolved_data }` — a spread property overrides the explicit one. -/
def mergeServerData (pi : ProcessedItem) : PartialTask :=
  match pi.resolved_data with
  | none => { server_id := pi.server_id }
  | some rd => { rd with server_id := rd.server_id.or pi.server_id }

/-- `updateSyncStatus(taskId, status, serverData)`: one dynamically built
UPDATE on `tasks` setting `sync_status`, plus `last_synced_at` and (when
`serverData?.server_id` is truthy — a present, non-empty string) `server_id`
when the status is `'synced'`. -/
def updateSyncStatusE (env : Env) (taskId status : String)
    (serverData : Option PartialTask) (st : St) : Except (String × St) St :=
  let sid : Option String :=
    if status = "synced" then
      match serverData with
      | some sd =>
          match sd.server_id with
          | some v => if v = "" then none else some v
          | none => none
      | none => none
    else none
  let lastS : Option Nat := if status = "synced" then some env.now else none
  dbRunE env (.updateTaskSyncStatus taskId status sid lastS) st

/-- `removeFromSyncQueue(taskId)`: `DELETE FROM sync_queue WHERE task_id = ?`. -/
def removeFromSyncQueueE (env : Env) (taskId : String) (st : St) :
    Except (String × St) St :=
  dbRunE env (.deleteFromQueue taskId) st

/-- `handleSyncError(item, error)`: increment the entry's retry count and
store the message; mark the task `'failed'` once the new count reaches
`maxRetries`, `'error'` below it. -/
def handleSyncErrorE (env : Env) (item : SyncQueueItem) (errMsg : String)
    (st : St) : Except (String × St) St :=
  let newRetryCount := item.retry_count + 1
  if maxRetries ≤ newRetryCount then
    (dbRunE env (.updateQueueRetry item.id newRetryCount errMsg) st).bind
      fun st1 => dbRunE env (.setTaskStatus item.task_id "failed") st1
  else
    (dbRunE env (.updateQueueRetry item.id newRetryCount errMsg) st).bind
      fun st1 => dbRunE env (.setTaskStatus item.task_id "error") st1

/-- The body of the per-item loop over `batchResponse.processed_items`
(src/services/syncService.ts lines 47-89). -/
def processItemE (env : Env) (batch : List SyncQueueItem) (pi : ProcessedItem)
    (st : St) : Except (String × St) St :=
  if pi.status = "success" ∨ pi.status = "conflict" then
    (updateSyncStatusE env pi.client_id "synced" (some (mergeServerData pi)) st).bind
      fun st1 =>
    (removeFromSyncQueueE env pi.client_id st1).bind fun st2 =>
    let st3 := { st2 with res :=
      { st2.res with synced_items := st2.res.synced_items + 1 } }
    if pi.status = "conflict" then
      .ok { st3 with res := { st3.res with errors := st3.res.errors ++
        [⟨pi.client_id, "sync", "Conflict resolved using last-write-wins",
          env.now⟩] } }
    else
      .ok st3
  else
    ((match batch.find? (fun it => it.task_id == pi.client_id) with
      | some queueItem =>
          handleSyncErrorE env queueItem (pi.error.getD "Unknown error") st
      | none => .ok st : Except (String × St) St)).bind fun st1 =>
      .ok { st1 with res := { st1.res with
        failed_items := st1.res.failed_items + 1,
        errors := st1.res.errors ++
          [⟨pi.client_id, "sync", pi.error.getD "Unknown error", env.now⟩] } }

/-- Folds `processItemE` over the processed items of one batch response. -/
def processItemsE (env : Env) (batch : List SyncQueueItem) :
    List ProcessedItem → St → Except (String × St) St
  | [], st => .ok st
  | pi :: rest, st =>
      (processItemE env batch pi st).bind fun st1 =>
        processItemsE env batch rest st1

/-- The catch handler of the per-batch `try` (lines 90-103): flag the result
unsuccessful, then route every item of the batch to `handleSyncError`,
counting each as failed. -/
def catchBatchE (env : Env) (errMsg : String) :
    List SyncQueueItem → St → Except (String × St) St
  | [], st => .ok st
  | item :: rest, st =>
      (handleSyncErrorE env item errMsg st).bind fun st1 =>
        catchBatchE env errMsg rest
          { st1 with res := { st1.res with
            failed_items := st1.res.failed_items + 1,
            errors := st1.res.errors ++
              [⟨item.task_id, item.operation, errMsg, env.now⟩] } }

/-- One iteration of the batch loop: record the submission, call
`processBatch` (the POST), interpret the response; a throw anywhere in the
try-block (transport failure or a database throw while applying the
response) falls into the catch handler, whose own database throws propagate
outward. -/
def processBatchE (env : Env) (st : St) (batch : List SyncQueueItem) :
    Except (String × St) St :=
  let st0 := { st with posted := st.posted ++ [batch] }
  match
    (match env.post batch with
     | .error m => .error (m, st0)
     | .ok resp => processItemsE env batch resp.processed_items st0 :
      Except (String × St) St) with
  | .ok st1 => .ok st1
  | .error (m, st1) =>
      catchBatchE env m batch
        { st1 with res := { st1.res with success := false } }

/-- Folds the batch loop over all batches (strictly sequential). -/
def processBatchesE (env : Env) :
    List (List SyncQueueItem) → St → Except (String × St) St
  | [], st => .ok st
  | b :: rest, st =>
      (processBatchE env st b).bind fun st1 => processBatchesE env rest st1

/-- The initial `result` object of `sync()`. -/
def initResult : SyncResult :=
  { success := true, synced_items := 0, failed_items := 0, errors := [] }

/-- The try-block of `sync()` (lines 31-107): read the due queue entries,
return the untouched result when there are none, otherwise run the batch
loop and recompute `success = (failed_items == 0)`. -/
def syncBody (env : Env) (s : DBState) : Except (String × St) St :=
  let st0 : St := ⟨s, initResult, []⟩
  match env.allFault with
  | some m => .error (m, st0)
  | none =>
      let queueItems := getSyncQueueItems s
      if queueItems = [] then .ok st0
      else
        (processBatchesE env (toBatches env.batchSize queueItems) st0).bind
          fun st =>
            .ok { st with res :=
              { st.res with success := st.res.failed_items = 0 } }

/-- `sync()`: the try-block wrapped in the outer catch (lines 109-117),
which converts any escaped throw into a structured result.  The codomain is
`Except` so that "the call never raises" is a provable statement rather
than a typing artifact. -/
def sync (env : Env) (s : DBState) : Except (String × St) St :=
  match syncBody env s with
  | .ok st => .ok st
  | .error (m, st) =>
      .ok { st with res := { st.res with
        success := false,
        errors := st.res.errors ++ [⟨"N/A", "sync", m, env.now⟩] } }

/-- `checkConnectivity()`: probe `GET /health`; any transport failure is
swallowed by the try/catch and becomes `false`. -/
def checkConnectivity (env : Env) : Bool :=
  match env.health with
  | .ok _ => true
  | .error _ => false

/-- The snapshot returned by `getSyncStatus()`. -/
structure SyncStatusSnapshot where
  pending_sync_count : Nat
  last_sync_timestamp : Option Nat
  is_online : Bool
  sync_queue_size : Nat
deriving DecidableEq, Repr

/-- `getSyncStatus()`: three `db.get` queries and the connectivity probe.
There is no try/catch in the source, so a throwing `db.get` propagates to
the caller — hence the `Except` codomain with genuine `.error` outcomes. -/
def getSyncStatus (env : Env) (s : DBState) :
    Except String SyncStatusSnapshot :=
  match env.getFault .pendingCount with
  | some m => .error m
  | none =>
    let pending_sync_count :=
      (s.tasks.filter fun t =>
        t.sync_status == "pending" || t.sync_status == "error").length
    match env.getFault .lastSynced with
    | some m => .error m
    | none =>
      let last_sync_timestamp := (s.tasks.filterMap fun t => t.last_synced_at).max?
      let is_online := checkConnectivity env
      match env.getFault .queueSize with
      | some m => .error m
      | none =>
          .ok ⟨pending_sync_count, last_sync_timestamp, is_online,
               s.sync_queue.length⟩

/-! ### TaskService (the record store; src/services/taskService.ts) -/

/-- `getTask(id)`: `SELECT * FROM tasks WHERE id = ? AND is_deleted = 0`,
returning the first matching row. -/
def getTask (s : DBState) (id : String) : Option Task :=
  s.tasks.find? fun t => t.id == id && t.is_deleted == false

/-- `getTaskIncludingDeleted(id)`: `SELECT * FROM tasks WHERE id = ?`. -/
def getTaskIncludingDeleted (s : DBState) (id : String) : Option Task :=
  s.tasks.find? fun t => t.id == id

/-- `getAllTasks()`: `SELECT * FROM tasks WHERE is_deleted = 0 ORDER BY
created_at DESC`. -/
def getAllTasks (s : DBState) : List Task :=
  (s.tasks.filter fun t => t.is_deleted == false).mergeSort
    fun a b => b.created_at ≤ a.created_at

/-- `deleteTask(id)`: soft delete.  `now` is the wall clock and `qid` the
UUID generated for the queue entry. -/
def deleteTask (now : Nat) (qid : String) (s : DBState) (id : String) :
    Bool × DBState :=
  match getTask s id with
  | none => (false, s)
  | some _ =>
    let s1 : DBState := { s with tasks := s.tasks.map fun t =>
        if t.id = id then
          { t with is_deleted := true, updated_at := now,
                   sync_status := "pending" }
        else t }
    match getTaskIncludingDeleted s1 id with
    | none => (true, s1)
    | some deletedTask =>
        (true, { s1 with sync_queue := s1.sync_queue ++
          [⟨qid, id, "delete", some deletedTask, now, 0, none⟩] })

/-! ### Theorems -/

/-- Two tasks sharing id and timestamp but with different content. -/
def taskA : Task :=
  ⟨"t1", "local title", none, false, 0, 100, false, "pending", none, none⟩

/-- Same as `taskA` except for the title. -/
def taskB : Task :=
  ⟨"t1", "server title", none, true, 0, 100, false, "pending", none, none⟩

/-- C1 (counterexample): `_resolveConflict` is not commutative at equal
timestamps — with `taskA.updated_at = taskB.updated_at` and different
content, resolving (A,B) and (B,A) return different winners. -/
theorem resolveConflict_tie_not_commutative :
    taskA.updated_at = taskB.updated_at ∧
    resolveConflict taskA taskB ≠ resolveConflict taskB taskA := by
  decide

/-- C1 (amended): `_resolveConflict` is deterministic last-write-wins; it is
commutative whenever the two `updated_at` timestamps differ (the strictly
newer task wins regardless of argument order), but at equal timestamps it
returns its second (server) argument, so the tie winner depends on argument
order. -/
theorem resolveConflict_lww_commutative_off_ties (A B : Task) :
    (A.updated_at ≠ B.updated_at →
      resolveConflict A B = resolveConflict B A) ∧
    (A.updated_at = B.updated_at →
      resolveConflict A B = B ∧ resolveConflict B A = A) := by
  constructor
  · intro hne
    unfold resolveConflict
    rcases Nat.lt_or_ge A.updated_at B.updated_at with h | h
    · simp [Nat.not_lt.mpr (Nat.le_of_lt h), h]
    · rcases Nat.lt_or_ge B.updated_at A.updated_at with h2 | h2
      · simp [h2, Nat.not_lt.mpr (Nat.le_of_lt h2)]
      · exact absurd (Nat.le_antisymm h2 h) hne
  · intro heq
    unfold resolveConflict
    simp [heq, Nat.lt_irrefl]

/-- C1 (witness for the amended theorem): at distinct timestamps both orders
return the same winner; at the tie of `taskA`/`taskB` the second argument is
returned. -/
theorem resolveConflict_lww_commutative_off_ties_witness :
    resolveConflict taskA { taskB with updated_at := 200 } =
      resolveConflict { taskB with updated_at := 200 } taskA ∧
    resolveConflict taskA taskB = taskB := by
  refine ⟨(resolveConflict_lww_commutative_off_ties taskA
    { taskB with updated_at := 200 }).1 (by decide),
    ((resolveConflict_lww_commutative_off_ties taskA taskB).2 (by decide)).1⟩

/-- C10: `checkConnectivity` is a total boolean function of the probe's
outcome — `true` exactly when the health probe succeeds, `false` on every
probe failure, never an exception. -/
theorem checkConnectivity_total (env : Env) :
    (checkConnectivity env = true ↔ env.health = .ok ()) ∧
    (checkConnectivity env = false ↔ ∃ m, env.health = .error m) := by
  cases h : env.health with
  | ok u => cases u; simp [checkConnectivity, h]
  | error m => simp [checkConnectivity, h]

/-! ### The due-entry query and batch partitioning (C7) -/

theorem getSyncQueueItems_mem (s : DBState) (e : SyncQueueItem) :
    e ∈ getSyncQueueItems s ↔
      e ∈ s.sync_queue ∧ e.retry_count < maxRetries := by
  unfold getSyncQueueItems
  rw [List.mem_mergeSort, List.mem_filter]
  simp

theorem getSyncQueueItems_sorted (s : DBState) :
    List.Sorted (fun a b : SyncQueueItem => a.created_at ≤ b.created_at)
      (getSyncQueueItems s) := by
  unfold getSyncQueueItems
  have h := @List.sorted_mergeSort SyncQueueItem
    (fun a b : SyncQueueItem => decide (a.created_at ≤ b.created_at))
    (fun a b c hab hbc => by
      simp only [decide_eq_true_eq] at *
      exact Nat.le_trans hab hbc)
    (fun a b => by
      simp only [Bool.or_eq_true, decide_eq_true_eq]
      exact Nat.le_total a.created_at b.created_at)
    (s.sync_queue.filter fun e => e.retry_count < maxRetries)
  exact h.imp (fun hab => of_decide_eq_true hab)

theorem toBatches_flatten (n : Nat) (hn : 0 < n) (l : List SyncQueueItem) :
    (toBatches n l).flatten = l := by
  by_cases hc : l = [] ∨ n = 0
  · rcases hc with h | h
    · simp [toBatches, h]
    · omega
  · rw [toBatches, dif_neg hc, List.flatten_cons,
      toBatches_flatten n hn (l.drop n), List.take_append_drop]
termination_by l.length
decreasing_by
  simp only [not_or] at hc
  rw [List.length_drop]
  exact Nat.sub_lt (List.length_pos.mpr hc.1) hn

theorem toBatches_length_le (n : Nat) (l : List SyncQueueItem) :
    ∀ b ∈ toBatches n l, b.length ≤ n := by
  by_cases hc : l = [] ∨ n = 0
  · rw [toBatches, dif_pos hc]
    simp
  · rw [toBatches, dif_neg hc]
    intro b hb
    rcases List.mem_cons.mp hb with rfl | hb
    · exact List.length_take_le n l
    · exact toBatches_length_le n (l.drop n) b hb
termination_by l.length
decreasing_by
  simp only [not_or] at hc
  rw [List.length_drop]
  exact Nat.sub_lt (List.length_pos.mpr hc.1) (Nat.pos_of_ne_zero hc.2)

/-! ### Fault-free runs of the cycle's components -/

theorem exceptBind_ok {α β ε : Type} (a : α) (f : α → Except ε β) :
    (Except.ok a : Except ε α).bind f = f a := rfl

theorem exceptBind_error {α β ε : Type} (e : ε) (f : α → Except ε β) :
    (Except.error e : Except ε α).bind f = Except.error e := rfl

theorem dbRunE_none {env : Env} {c : DbRun} (h : env.runFault c = none)
    (st : St) : dbRunE env c st = .ok { st with db := applyRun c st.db } := by
  simp [dbRunE, h]

theorem updateSyncStatusE_none {env : Env} (hR : ∀ c, env.runFault c = none)
    (taskId status : String) (serverData : Option PartialTask) (st : St) :
    ∃ c : DbRun, updateSyncStatusE env taskId status serverData st =
      .ok { st with db := applyRun c st.db } := by
  unfold updateSyncStatusE
  exact ⟨_, dbRunE_none (hR _) st⟩

theorem handleSyncErrorE_none {env : Env} (hR : ∀ c, env.runFault c = none)
    (item : SyncQueueItem) (m : String) (st : St) :
    handleSyncErrorE env item m st = .ok { st with db :=
      (applyRun (.setTaskStatus item.task_id
          (if maxRetries ≤ item.retry_count + 1 then "failed" else "error"))
        (applyRun (.updateQueueRetry item.id (item.retry_count + 1) m)
          st.db)) } := by
  unfold handleSyncErrorE
  by_cases h : maxRetries ≤ item.retry_count + 1
  · rw [if_pos h, if_pos h, dbRunE_none (hR _), exceptBind_ok,
      dbRunE_none (hR _)]
  · rw [if_neg h, if_neg h, dbRunE_none (hR _), exceptBind_ok,
      dbRunE_none (hR _)]

theorem processItemE_none {env : Env} (hR : ∀ c, env.runFault c = none)
    (batch : List SyncQueueItem) (pi : ProcessedItem) (st : St) :
    ∃ st', processItemE env batch pi st = .ok st' ∧
      st'.posted = st.posted := by
  unfold processItemE
  by_cases hs : pi.status = "success" ∨ pi.status = "conflict"
  · obtain ⟨c, hc⟩ := updateSyncStatusE_none hR pi.client_id "synced"
      (some (mergeServerData pi)) st
    rw [if_pos hs, hc, exceptBind_ok]
    unfold removeFromSyncQueueE
    rw [dbRunE_none (hR _), exceptBind_ok]
    by_cases h2 : pi.status = "conflict"
    · rw [if_pos h2]
      exact ⟨_, rfl, rfl⟩
    · rw [if_neg h2]
      exact ⟨_, rfl, rfl⟩
  · rw [if_neg hs]
    cases hfind : batch.find? (fun it => it.task_id == pi.client_id) with
    | some queueItem =>
        simp only []
        rw [handleSyncErrorE_none hR, exceptBind_ok]
        exact ⟨_, rfl, rfl⟩
    | none =>
        simp only []
        rw [exceptBind_ok]
        exact ⟨_, rfl, rfl⟩

theorem processItemsE_none {env : Env} (hR : ∀ c, env.runFault c = none)
    (batch : List SyncQueueItem) :
    ∀ (pis : List ProcessedItem) (st : St),
      ∃ st', processItemsE env batch pis st = .ok st' ∧
        st'.posted = st.posted
  | [], st => ⟨st, rfl, rfl⟩
  | pi :: rest, st => by
      obtain ⟨st1, h1, hp1⟩ := processItemE_none hR batch pi st
      obtain ⟨st2, h2, hp2⟩ := processItemsE_none hR batch rest st1
      exact ⟨st2, by rw [processItemsE, h1, exceptBind_ok, h2],
        by rw [hp2, hp1]⟩

theorem catchBatchE_none {env : Env} (hR : ∀ c, env.runFault c = none)
    (m : String) :
    ∀ (items : List SyncQueueItem) (st : St),
      ∃ st', catchBatchE env m items st = .ok st' ∧
        st'.posted = st.posted ∧ st'.res.success = st.res.success
  | [], st => ⟨st, rfl, rfl, rfl⟩
  | item :: rest, st => by
      obtain ⟨st2, h2, hp2, hs2⟩ := catchBatchE_none hR m rest _
      exact ⟨st2,
        by rw [catchBatchE, handleSyncErrorE_none hR, exceptBind_ok]; exact h2,
        by rw [hp2], by rw [hs2]⟩

theorem processBatchE_none {env : Env} (hR : ∀ c, env.runFault c = none)
    (st : St) (batch : List SyncQueueItem) :
    ∃ st', processBatchE env st batch = .ok st' ∧
      st'.posted = st.posted ++ [batch] := by
  unfold processBatchE
  cases hp : env.post batch with
  | ok resp =>
      simp only []
      obtain ⟨st1, h1, hp1⟩ := processItemsE_none hR batch
        resp.processed_items { st with posted := st.posted ++ [batch] }
      rw [h1]
      exact ⟨st1, rfl, hp1⟩
  | error m =>
      simp only []
      obtain ⟨st2, h2, hp2, _⟩ := catchBatchE_none hR m batch
        { db := st.db,
          res := { st.res with success := false },
          posted := st.posted ++ [batch] }
      rw [h2]
      exact ⟨st2, rfl, hp2⟩

theorem processBatchesE_none {env : Env} (hR : ∀ c, env.runFault c = none) :
    ∀ (bs : List (List SyncQueueItem)) (st : St),
      ∃ st', processBatchesE env bs st = .ok st' ∧
        st'.posted = st.posted ++ bs
  | [], st => ⟨st, rfl, by simp⟩
  | b :: rest, st => by
      obtain ⟨st1, h1, hp1⟩ := processBatchE_none hR st b
      obtain ⟨st2, h2, hp2⟩ := processBatchesE_none hR rest st1
      refine ⟨st2, by rw [processBatchesE, h1, exceptBind_ok]; exact h2, ?_⟩
      rw [hp2, hp1]
      simp

theorem toBatches_nil (n : Nat) : toBatches n [] = [] := by
  rw [toBatches]
  simp

/-- Under a fault-free database, `sync` completes with `.ok`, posts exactly
the batch partition of the due entries in order, and ends with
`success = (failed_items == 0)`. -/
theorem sync_none {env : Env} (hA : env.allFault = none)
    (hR : ∀ c, env.runFault c = none) (s : DBState) :
    ∃ st, sync env s = .ok st ∧
      st.posted = toBatches env.batchSize (getSyncQueueItems s) ∧
      st.res.success = decide (st.res.failed_items = 0) := by
  unfold sync syncBody
  rw [hA]
  simp only []
  by_cases he : getSyncQueueItems s = []
  · rw [if_pos he, he, toBatches_nil]
    exact ⟨_, rfl, rfl, rfl⟩
  · rw [if_neg he]
    obtain ⟨st1, h1, hp1⟩ := processBatchesE_none hR
      (toBatches env.batchSize (getSyncQueueItems s)) ⟨s, initResult, []⟩
    rw [h1, exceptBind_ok]
    exact ⟨_, rfl, by simpa using hp1, rfl⟩

/-! ### Concrete fixtures for witnesses and counterexamples -/

/-- A fault-free environment whose transport is down. -/
def envOk : Env :=
  { batchSize := 50, now := 1000,
    post := fun _ => .error "network down",
    health := .ok (),
    allFault := none,
    runFault := fun _ => none,
    getFault := fun _ => none }

/-- An environment whose database throws on every call. -/
def envDbDown : Env :=
  { batchSize := 50, now := 1000,
    post := fun _ => .ok ⟨[]⟩,
    health := .ok (),
    allFault := some "database unavailable",
    runFault := fun _ => some "database unavailable",
    getFault := fun _ => some "database unavailable" }

/-- The empty database. -/
def emptyDB : DBState := ⟨[], []⟩

/-- C4: with no due queue entries, `sync()` returns
`{success: true, synced_items: 0, failed_items: 0, errors: []}` with the
database untouched and nothing posted to the network. -/
theorem sync_empty_queue (env : Env) (s : DBState)
    (hA : env.allFault = none) (he : getSyncQueueItems s = []) :
    sync env s = .ok ⟨s, ⟨true, 0, 0, []⟩, []⟩ := by
  unfold sync syncBody
  rw [hA]
  simp only []
  rw [if_pos he]
  rfl

/-- C4 (witness): on an empty database the previous theorem applies
literally. -/
theorem sync_empty_queue_witness :
    sync envOk emptyDB = .ok ⟨emptyDB, ⟨true, 0, 0, []⟩, []⟩ :=
  sync_empty_queue envOk emptyDB rfl (by simp [getSyncQueueItems, emptyDB])

/-- C2 (counterexample): a throwing database makes `getSyncStatus` raise —
the call evaluates to `.error`, not to a structured status value, refuting
the claim that no error escapes `getSyncStatus()`. -/
theorem getSyncStatus_raises :
    getSyncStatus envDbDown emptyDB = .error "database unavailable" := rfl

/-- C2 (amended): no exception escapes `sync()` for any database/transport
behaviour; `getSyncStatus()` returns a structured status for every
transport behaviour provided its database queries succeed (its only escape
hatches are the three `db.get` calls, which have no try/catch). -/
theorem sync_never_raises_getSyncStatus_needs_db :
    (∀ (env : Env) (s : DBState), ∃ st, sync env s = .ok st) ∧
    (∀ (env : Env) (s : DBState), (∀ g, env.getFault g = none) →
      ∃ v, getSyncStatus env s = .ok v) := by
  constructor
  · intro env s
    unfold sync
    cases syncBody env s with
    | ok st => exact ⟨st, rfl⟩
    | error e =>
        obtain ⟨m, st⟩ := e
        exact ⟨_, rfl⟩
  · intro env s hG
    unfold getSyncStatus
    rw [hG .pendingCount, hG .lastSynced, hG .queueSize]
    exact ⟨_, rfl⟩

/-- C2 (witness): the amended theorem at the concrete fault-free
environment and at the all-throwing one. -/
theorem sync_never_raises_witness :
    (∃ st, sync envDbDown emptyDB = .ok st) ∧
    (∃ v, getSyncStatus envOk emptyDB = .ok v) :=
  ⟨sync_never_raises_getSyncStatus_needs_db.1 envDbDown emptyDB,
   sync_never_raises_getSyncStatus_needs_db.2 envOk emptyDB fun _ => rfl⟩

/-- C7: the due-entry query returns exactly the queue entries with
`retry_count < maxRetries` (as a multiset), ordered ascending by enqueue
timestamp globally; `sync()` partitions that sequence into consecutive
batches of at most `batchSize` entries whose concatenation restores the
sequence, and posts exactly those batches in order. -/
theorem dueQuery_order_and_batching :
    (∀ (s : DBState) (e : SyncQueueItem),
       e ∈ getSyncQueueItems s ↔
         e ∈ s.sync_queue ∧ e.retry_count < maxRetries) ∧
    (∀ s : DBState, (getSyncQueueItems s).Perm
       (s.sync_queue.filter fun e => e.retry_count < maxRetries)) ∧
    (∀ s : DBState, List.Sorted
       (fun a b : SyncQueueItem => a.created_at ≤ b.created_at)
       (getSyncQueueItems s)) ∧
    (∀ (n : Nat) (l : List SyncQueueItem), 0 < n →
       (toBatches n l).flatten = l ∧ ∀ b ∈ toBatches n l, b.length ≤ n) ∧
    (∀ (env : Env) (s : DBState), env.allFault = none →
       (∀ c, env.runFault c = none) →
       ∃ st, sync env s = .ok st ∧
         st.posted = toBatches env.batchSize (getSyncQueueItems s)) := by
  refine ⟨getSyncQueueItems_mem, fun s => List.mergeSort_perm _ _,
    getSyncQueueItems_sorted,
    fun n l hn => ⟨toBatches_flatten n hn l, toBatches_length_le n l⟩,
    fun env s hA hR => ?_⟩
  obtain ⟨st, h, hp, _⟩ := sync_none hA hR s
  exact ⟨st, h, hp⟩

/-- A due queue entry enqueued at time 5. -/
def q1 : SyncQueueItem := ⟨"q1", "t1", "create", none, 5, 0, none⟩

/-- A due queue entry enqueued later, at time 7. -/
def q2 : SyncQueueItem := ⟨"q2", "t1", "update", none, 7, 0, none⟩

/-- An exhausted queue entry (`retry_count = maxRetries`). -/
def q3 : SyncQueueItem := ⟨"q3", "t2", "delete", none, 2, 3, none⟩

/-- A database with an unsorted queue containing a dead-letter entry. -/
def qDB : DBState := ⟨[], [q2, q3, q1]⟩

/-- C7 (witness): the query/batching theorem applied at a concrete
database, a batch size of 1, and the fault-free environment. -/
theorem dueQuery_order_and_batching_witness :
    (q3 ∈ getSyncQueueItems qDB ↔
      q3 ∈ qDB.sync_queue ∧ q3.retry_count < maxRetries) ∧
    ((toBatches 1 [q1, q2]).flatten = [q1, q2] ∧
      ∀ b ∈ toBatches 1 [q1, q2], b.length ≤ 1) ∧
    (∃ st, sync envOk qDB = .ok st ∧
      st.posted = toBatches envOk.batchSize (getSyncQueueItems qDB)) :=
  ⟨dueQuery_order_and_batching.1 qDB q3,
   dueQuery_order_and_batching.2.2.2.1 1 [q1, q2] (by decide),
   dueQuery_order_and_batching.2.2.2.2 envOk qDB rfl (fun _ => rfl)⟩

/-- C3: escalation in `handleSyncError`.  When the incremented retry count
reaches `maxRetries`, the record is marked `'failed'`, the queue entry is
retained with its `retry_count`/`error_message` updated (queue size
unchanged, not deleted) and no entry with its id is returned by the
due-entry query any more; below `maxRetries`, the record is marked
`'error'` and the updated entry is still due. -/
theorem handleSyncError_escalation :
    ∀ (env : Env) (item : SyncQueueItem) (m : String) (st : St),
      (∀ c, env.runFault c = none) → item ∈ st.db.sync_queue →
      (maxRetries ≤ item.retry_count + 1 →
        ∃ st', handleSyncErrorE env item m st = .ok st' ∧
          st'.db.sync_queue.length = st.db.sync_queue.length ∧
          { item with retry_count := item.retry_count + 1,
                      error_message := some m } ∈ st'.db.sync_queue ∧
          (∀ t ∈ st'.db.tasks, t.id = item.task_id →
            t.sync_status = "failed") ∧
          (∀ e ∈ getSyncQueueItems st'.db, e.id ≠ item.id)) ∧
      (item.retry_count + 1 < maxRetries →
        ∃ st', handleSyncErrorE env item m st = .ok st' ∧
          { item with retry_count := item.retry_count + 1,
                      error_message := some m } ∈ getSyncQueueItems st'.db ∧
          (∀ t ∈ st'.db.tasks, t.id = item.task_id →
            t.sync_status = "error")) := by
  intro env item m st hR hrow
  have hrun := handleSyncErrorE_none hR item m st
  have hmem : { item with retry_count := item.retry_count + 1,
                          error_message := some m } ∈
      (applyRun (.updateQueueRetry item.id (item.retry_count + 1) m)
        st.db).sync_queue := by
    simp only [applyRun]
    have h2 := List.mem_map_of_mem
      (f := fun e : SyncQueueItem =>
        if e.id = item.id then
          { e with retry_count := item.retry_count + 1,
                   error_message := some m }
        else e) hrow
    simpa using h2
  constructor
  · intro hge
    rw [if_pos hge] at hrun
    refine ⟨_, hrun, ?_, ?_, ?_, ?_⟩
    · simp [applyRun]
    · simp only [applyRun]
      exact hmem
    · intro t ht hid
      simp only [applyRun, List.mem_map] at ht
      obtain ⟨a, _, rfl⟩ := ht
      by_cases hb : a.id = item.task_id
      · rw [if_pos hb]
      · rw [if_neg hb] at hid ⊢
        exact absurd hid hb
    · intro e he
      rw [getSyncQueueItems_mem] at he
      obtain ⟨hq, hlt⟩ := he
      simp only [applyRun, List.mem_map] at hq
      obtain ⟨a, _, rfl⟩ := hq
      by_cases hb : a.id = item.id
      · rw [if_pos hb] at hlt
        simp only [maxRetries] at hlt hge
        omega
      · rw [if_neg hb]
        exact hb
  · intro hlt
    rw [if_neg (by omega : ¬ maxRetries ≤ item.retry_count + 1)] at hrun
    refine ⟨_, hrun, ?_, ?_⟩
    · rw [getSyncQueueItems_mem]
      refine ⟨?_, by simpa using hlt⟩
      simp only [applyRun]
      exact hmem
    · intro t ht hid
      simp only [applyRun, List.mem_map] at ht
      obtain ⟨a, _, rfl⟩ := ht
      by_cases hb : a.id = item.task_id
      · rw [if_pos hb]
      · rw [if_neg hb] at hid ⊢
        exact absurd hid hb

/-- A queue entry two failures in (its next failure is the third). -/
def qReach : SyncQueueItem := ⟨"qa", "t1", "update", none, 1, 2, none⟩

/-- A fresh queue entry. -/
def qBelow : SyncQueueItem := ⟨"qb", "t2", "update", none, 1, 0, none⟩

/-- The record `qReach` refers to. -/
def tk1 : Task := ⟨"t1", "a", none, false, 0, 0, false, "pending", none, none⟩

/-- The record `qBelow` refers to. -/
def tk2 : Task := ⟨"t2", "b", none, false, 0, 0, false, "pending", none, none⟩

/-- A cycle state holding both records and both queue entries. -/
def c3St : St := ⟨⟨[tk1, tk2], [qReach, qBelow]⟩, initResult, []⟩

/-- C3 (witness): the escalation theorem applied to a concrete entry that
reaches `maxRetries` and to one that stays below it. -/
theorem handleSyncError_escalation_witness :
    (∃ st', handleSyncErrorE envOk qReach "boom" c3St = .ok st' ∧
      st'.db.sync_queue.length = c3St.db.sync_queue.length ∧
      { qReach with retry_count := qReach.retry_count + 1,
                    error_message := some "boom" } ∈ st'.db.sync_queue ∧
      (∀ t ∈ st'.db.tasks, t.id = qReach.task_id →
        t.sync_status = "failed") ∧
      (∀ e ∈ getSyncQueueItems st'.db, e.id ≠ qReach.id)) ∧
    (∃ st', handleSyncErrorE envOk qBelow "boom" c3St = .ok st' ∧
      { qBelow with retry_count := qBelow.retry_count + 1,
                    error_message := some "boom" } ∈ getSyncQueueItems st'.db ∧
      (∀ t ∈ st'.db.tasks, t.id = qBelow.task_id →
        t.sync_status = "error")) :=
  ⟨(handleSyncError_escalation envOk qReach "boom" c3St (fun _ => rfl)
      (by decide)).1 (by decide),
   (handleSyncError_escalation envOk qBelow "boom" c3St (fun _ => rfl)
      (by decide)).2 (by decide)⟩

/-- C8: on the success/conflict path, `updateSyncStatus` (called with
status `'synced'` and the merged `{server_id, ...resolved_data}` payload)
touches only `sync_status`, `last_synced_at` and — when the merged payload
carries a truthy `server_id` — `server_id`; every content field (`id`,
`title`, `description`, `completed`, `is_deleted`, `created_at`,
`updated_at`) of every row is unchanged, non-matching rows are unchanged
entirely, and the queue is untouched.  The content of `resolved_data` is
discarded even for a conflict outcome. -/
theorem serverIdMerge (x old : Option String) :
    (match (match x with
            | some v => if v = "" then none else some v
            | none => none : Option String) with
     | some v => some v
     | none => old) =
    (match x with
     | some v => if v = "" then old else some v
     | none => old) := by
  cases x with
  | none => rfl
  | some v =>
      by_cases hv : v = ""
      · simp [hv]
      · simp [hv]

theorem updateSyncStatus_frame :
    ∀ (env : Env) (pi : ProcessedItem) (st : St),
      (∀ c, env.runFault c = none) →
      ∃ st', updateSyncStatusE env pi.client_id "synced"
          (some (mergeServerData pi)) st = .ok st' ∧
        st'.db.sync_queue = st.db.sync_queue ∧
        st'.db.tasks.length = st.db.tasks.length ∧
        (∀ (i : Nat) (h1 : i < st.db.tasks.length)
            (h2 : i < st'.db.tasks.length),
          (st'.db.tasks.get ⟨i, h2⟩).id = (st.db.tasks.get ⟨i, h1⟩).id ∧
          (st'.db.tasks.get ⟨i, h2⟩).title =
            (st.db.tasks.get ⟨i, h1⟩).title ∧
          (st'.db.tasks.get ⟨i, h2⟩).description =
            (st.db.tasks.get ⟨i, h1⟩).description ∧
          (st'.db.tasks.get ⟨i, h2⟩).completed =
            (st.db.tasks.get ⟨i, h1⟩).completed ∧
          (st'.db.tasks.get ⟨i, h2⟩).is_deleted =
            (st.db.tasks.get ⟨i, h1⟩).is_deleted ∧
          (st'.db.tasks.get ⟨i, h2⟩).created_at =
            (st.db.tasks.get ⟨i, h1⟩).created_at ∧
          (st'.db.tasks.get ⟨i, h2⟩).updated_at =
            (st.db.tasks.get ⟨i, h1⟩).updated_at) ∧
        (∀ (i : Nat) (h1 : i < st.db.tasks.length)
            (h2 : i < st'.db.tasks.length),
          (st.db.tasks.get ⟨i, h1⟩).id = pi.client_id →
            (st'.db.tasks.get ⟨i, h2⟩).sync_status = "synced" ∧
            (st'.db.tasks.get ⟨i, h2⟩).last_synced_at = some env.now ∧
            (st'.db.tasks.get ⟨i, h2⟩).server_id =
              (match (mergeServerData pi).server_id with
               | some v =>
                   if v = "" then (st.db.tasks.get ⟨i, h1⟩).server_id
                   else some v
               | none => (st.db.tasks.get ⟨i, h1⟩).server_id)) ∧
        (∀ (i : Nat) (h1 : i < st.db.tasks.length)
            (h2 : i < st'.db.tasks.length),
          (st.db.tasks.get ⟨i, h1⟩).id ≠ pi.client_id →
            st'.db.tasks.get ⟨i, h2⟩ = st.db.tasks.get ⟨i, h1⟩) := by
  intro env pi st hR
  unfold updateSyncStatusE
  rw [dbRunE_none (hR _)]
  refine ⟨_, rfl, by simp [applyRun], by simp [applyRun], ?_, ?_, ?_⟩
  · intro i h1 h2
    simp only [applyRun, List.get_eq_getElem, List.getElem_map]
    by_cases hb : (st.db.tasks.get ⟨i, h1⟩).id = pi.client_id
    · simp only [List.get_eq_getElem] at hb
      rw [if_pos hb]
      simp
    · simp only [List.get_eq_getElem] at hb
      rw [if_neg hb]
      simp
  · intro i h1 h2 hb
    simp only [List.get_eq_getElem] at hb
    simp only [applyRun, List.get_eq_getElem, List.getElem_map]
    rw [if_pos hb]
    refine ⟨by simp, by simp, ?_⟩
    simp only [reduceIte]
    exact serverIdMerge (mergeServerData pi).server_id _
  · intro i h1 h2 hb
    simp only [List.get_eq_getElem] at hb
    simp only [applyRun, List.get_eq_getElem, List.getElem_map]
    rw [if_neg hb]

/-- A conflict response item whose `resolved_data` supplies new content and
a server id. -/
def piConf : ProcessedItem :=
  ⟨"t1", some "srv1", "conflict",
   some ⟨some "remote title", some (some "remote desc"), some true,
         some true, none⟩, none⟩

/-- A cycle state holding one record matching `piConf`. -/
def c8St : St := ⟨⟨[tk1], []⟩, initResult, []⟩

/-- C8 (witness): the frame theorem applied to the concrete conflict item
and a one-record database. -/
theorem updateSyncStatus_frame_witness :
    ∃ st', updateSyncStatusE envOk piConf.client_id "synced"
        (some (mergeServerData piConf)) c8St = .ok st' ∧
      st'.db.sync_queue = c8St.db.sync_queue ∧
      st'.db.tasks.length = c8St.db.tasks.length := by
  obtain ⟨st', h, hq, hl, _⟩ :=
    updateSyncStatus_frame envOk piConf c8St (fun _ => rfl)
  exact ⟨st', h, hq, hl⟩

/-- C9: `deleteTask` is a soft delete.  For a missing or already-deleted id
it returns `false` and changes nothing; for an id found non-deleted it
returns `true`, keeps the row (same table size) with `is_deleted` set and
`sync_status = 'pending'`, enqueues a fresh `'delete'` queue entry for the
id, and afterwards `getTask` returns `none` and `getAllTasks` omits the
task. -/
theorem deleteTask_soft_delete :
    ∀ (now : Nat) (qid : String) (s : DBState) (id : String),
      (getTask s id = none → deleteTask now qid s id = (false, s)) ∧
      (∀ t0, getTask s id = some t0 →
        (deleteTask now qid s id).1 = true ∧
        (deleteTask now qid s id).2.tasks.length = s.tasks.length ∧
        { t0 with is_deleted := true, updated_at := now,
                  sync_status := "pending" } ∈ (deleteTask now qid s id).2.tasks ∧
        (∃ q ∈ (deleteTask now qid s id).2.sync_queue,
          q.task_id = id ∧ q.operation = "delete" ∧ q.retry_count = 0) ∧
        getTask (deleteTask now qid s id).2 id = none ∧
        (∀ u ∈ getAllTasks (deleteTask now qid s id).2, u.id ≠ id)) := by
  intro now qid s id
  constructor
  · intro hnone
    unfold deleteTask
    rw [hnone]
  · intro t0 ht
    have ht0mem : t0 ∈ s.tasks := List.mem_of_find?_eq_some ht
    have ht0p := List.find?_some ht
    simp only [Bool.and_eq_true, beq_iff_eq] at ht0p
    obtain ⟨ht0id, ht0del⟩ := ht0p
    have hdel : ∀ u ∈ (s.tasks.map fun t =>
        if t.id = id then
          { t with is_deleted := true, updated_at := now,
                   sync_status := "pending" }
        else t), u.id = id → u.is_deleted = true := by
      intro u hu huid
      rw [List.mem_map] at hu
      obtain ⟨a, _, rfl⟩ := hu
      by_cases hb : a.id = id
      · rw [if_pos hb]
      · rw [if_neg hb] at huid ⊢
        exact absurd huid hb
    have hfind2 : ∃ d, (s.tasks.map fun t =>
        if t.id = id then
          { t with is_deleted := true, updated_at := now,
                   sync_status := "pending" }
        else t).find? (fun t => t.id == id) = some d := by
      have hsome : ((s.tasks.map fun t =>
          if t.id = id then
            { t with is_deleted := true, updated_at := now,
                     sync_status := "pending" }
          else t).find? (fun t => t.id == id)).isSome = true := by
        rw [List.find?_isSome]
        refine ⟨(fun t : Task =>
          if t.id = id then
            { t with is_deleted := true, updated_at := now,
                     sync_status := "pending" }
          else t) t0, List.mem_map_of_mem _ ht0mem, ?_⟩
        simp [ht0id]
      exact ⟨_, Option.eq_some_of_isSome hsome⟩
    obtain ⟨d, hd⟩ := hfind2
    have hred : deleteTask now qid s id = (true,
        { tasks := s.tasks.map fun t =>
            if t.id = id then
              { t with is_deleted := true, updated_at := now,
                       sync_status := "pending" }
            else t,
          sync_queue := s.sync_queue ++
            [⟨qid, id, "delete", some d, now, 0, none⟩] }) := by
      unfold deleteTask getTaskIncludingDeleted
      rw [ht]
      simp only []
      rw [hd]
    rw [hred]
    refine ⟨rfl, by simp, ?_, ?_, ?_, ?_⟩
    · have h2 := List.mem_map_of_mem
        (f := fun t : Task =>
          if t.id = id then
            { t with is_deleted := true, updated_at := now,
                     sync_status := "pending" }
          else t) ht0mem
      simpa [ht0id] using h2
    · exact ⟨⟨qid, id, "delete", some d, now, 0, none⟩,
        by simp, rfl, rfl, rfl⟩
    · unfold getTask
      rw [List.find?_eq_none]
      intro u hu
      simp only [Bool.and_eq_true, beq_iff_eq, not_and]
      intro huid
      rw [hdel u hu huid]
      simp
    · intro u hu huid
      unfold getAllTasks at hu
      rw [List.mem_mergeSort, List.mem_filter] at hu
      obtain ⟨hu1, hu2⟩ := hu
      have := hdel u hu1 huid
      rw [this] at hu2
      simp at hu2

/-- A one-task database whose single row is not deleted. -/
def dbOne : DBState := ⟨[tk1], []⟩

/-- C9 (witness): the soft-delete theorem applied at a concrete database,
for an existing id and for a missing one. -/
theorem deleteTask_soft_delete_witness :
    deleteTask 5 "qd" dbOne "missing" = (false, dbOne) ∧
    (deleteTask 5 "qd" dbOne "t1").1 = true ∧
    getTask (deleteTask 5 "qd" dbOne "t1").2 "t1" = none :=
  ⟨(deleteTask_soft_delete 5 "qd" dbOne "missing").1 rfl,
   ((deleteTask_soft_delete 5 "qd" dbOne "t1").2 tk1 rfl).1,
   ((deleteTask_soft_delete 5 "qd" dbOne "t1").2 tk1 rfl).2.2.2.2.1⟩

/-! ### The success/conflict path (C5) and the batch-failure path (C6) -/

theorem processItemE_success {env : Env} (hR : ∀ c, env.runFault c = none)
    (batch : List SyncQueueItem) (pi : ProcessedItem) (st : St)
    (hs : pi.status = "success" ∨ pi.status = "conflict") :
    ∃ st', processItemE env batch pi st = .ok st' ∧
      st'.res.synced_items = st.res.synced_items + 1 ∧
      st'.res.failed_items = st.res.failed_items ∧
      st'.res.success = st.res.success ∧
      (∀ e ∈ st'.db.sync_queue, e.task_id ≠ pi.client_id) ∧
      (∀ e ∈ st.db.sync_queue, e.task_id ≠ pi.client_id →
        e ∈ st'.db.sync_queue) ∧
      (∀ t ∈ st'.db.tasks, t.id = pi.client_id →
        t.sync_status = "synced" ∧ t.last_synced_at = some env.now) ∧
      (pi.status = "conflict" →
        st'.res.errors = st.res.errors ++
          [⟨pi.client_id, "sync", "Conflict resolved using last-write-wins",
            env.now⟩]) ∧
      (pi.status = "success" → st'.res.errors = st.res.errors) := by
  unfold processItemE
  rw [if_pos hs]
  unfold updateSyncStatusE removeFromSyncQueueE
  rw [dbRunE_none (hR _), exceptBind_ok, dbRunE_none (hR _), exceptBind_ok]
  have hqueue : ∀ st'db, st'db =
      applyRun (.deleteFromQueue pi.client_id)
        (applyRun (.updateTaskSyncStatus pi.client_id "synced"
          (if "synced" = "synced" then
            match some (mergeServerData pi) with
            | some sd =>
                match sd.server_id with
                | some v => if v = "" then none else some v
                | none => none
            | none => none
          else none)
          (if "synced" = "synced" then some env.now else none)) st.db) →
      (∀ e ∈ st'db.sync_queue, e.task_id ≠ pi.client_id) ∧
      (∀ e ∈ st.db.sync_queue, e.task_id ≠ pi.client_id →
        e ∈ st'db.sync_queue) ∧
      (∀ t ∈ st'db.tasks, t.id = pi.client_id →
        t.sync_status = "synced" ∧ t.last_synced_at = some env.now) := by
    intro st'db hdef
    subst hdef
    refine ⟨?_, ?_, ?_⟩
    · intro e he
      simp only [applyRun, List.mem_filter] at he
      simpa using he.2
    · intro e he hne
      simp only [applyRun, List.mem_filter]
      exact ⟨he, by simpa using hne⟩
    · intro t ht hid
      simp only [applyRun, List.mem_map] at ht
      obtain ⟨a, _, rfl⟩ := ht
      by_cases hb : a.id = pi.client_id
      · rw [if_pos hb]
        exact ⟨rfl, by simp⟩
      · rw [if_neg hb] at hid ⊢
        exact absurd hid hb
  by_cases h2 : pi.status = "conflict"
  · rw [if_pos h2]
    obtain ⟨hq1, hq2, hq3⟩ := hqueue _ rfl
    refine ⟨_, rfl, rfl, rfl, rfl, hq1, hq2, hq3, fun _ => rfl, ?_⟩
    intro hsucc
    rw [hsucc] at h2
    simp at h2
  · rw [if_neg h2]
    obtain ⟨hq1, hq2, hq3⟩ := hqueue _ rfl
    exact ⟨_, rfl, rfl, rfl, rfl, hq1, hq2, hq3,
      fun hc => absurd hc h2, fun _ => rfl⟩

theorem processItemsE_no_fail {env : Env} (hR : ∀ c, env.runFault c = none)
    (batch : List SyncQueueItem) :
    ∀ (pis : List ProcessedItem) (st : St),
      (∀ pi ∈ pis, pi.status = "success" ∨ pi.status = "conflict") →
      ∃ st', processItemsE env batch pis st = .ok st' ∧
        st'.res.failed_items = st.res.failed_items
  | [], st, _ => ⟨st, rfl, rfl⟩
  | pi :: rest, st, hall => by
      obtain ⟨st1, h1, _, hf1, _⟩ := processItemE_success hR batch pi st
        (hall pi (List.mem_cons_self pi rest))
      obtain ⟨st2, h2, hf2⟩ := processItemsE_no_fail hR batch rest st1
        (fun x hx => hall x (List.mem_cons_of_mem pi hx))
      exact ⟨st2, by rw [processItemsE, h1, exceptBind_ok, h2],
        by rw [hf2, hf1]⟩

theorem processBatchesE_no_fail {env : Env}
    (hR : ∀ c, env.runFault c = none)
    (hpost : ∀ b, ∃ r, env.post b = .ok r ∧
      ∀ pi ∈ r.processed_items,
        pi.status = "success" ∨ pi.status = "conflict") :
    ∀ (bs : List (List SyncQueueItem)) (st : St),
      ∃ st', processBatchesE env bs st = .ok st' ∧
        st'.res.failed_items = st.res.failed_items
  | [], st => ⟨st, rfl, rfl⟩
  | b :: rest, st => by
      obtain ⟨r, hr, hall⟩ := hpost b
      obtain ⟨st1, h1, hf1⟩ := processItemsE_no_fail hR b r.processed_items
        { st with posted := st.posted ++ [b] } hall
      obtain ⟨st2, h2, hf2⟩ := processBatchesE_no_fail hR hpost rest st1
      refine ⟨st2, ?_, by rw [hf2, hf1]⟩
      rw [processBatchesE]
      unfold processBatchE
      rw [hr]
      simp only []
      rw [h1, exceptBind_ok]
      exact h2

theorem sync_all_conflicts {env : Env} (hA : env.allFault = none)
    (hR : ∀ c, env.runFault c = none)
    (hpost : ∀ b, ∃ r, env.post b = .ok r ∧
      ∀ pi ∈ r.processed_items,
        pi.status = "success" ∨ pi.status = "conflict")
    (s : DBState) :
    ∃ st, sync env s = .ok st ∧
      st.res.success = true ∧ st.res.failed_items = 0 := by
  unfold sync syncBody
  rw [hA]
  simp only []
  by_cases he : getSyncQueueItems s = []
  · rw [if_pos he]
    exact ⟨_, rfl, rfl, rfl⟩
  · rw [if_neg he]
    obtain ⟨st1, h1, hf1⟩ := processBatchesE_no_fail hR hpost
      (toBatches env.batchSize (getSyncQueueItems s)) ⟨s, initResult, []⟩
    rw [h1, exceptBind_ok]
    refine ⟨_, rfl, ?_, ?_⟩
    · simp only []
      rw [hf1]
      rfl
    · simp only []
      rw [hf1]
      rfl

/-- C5: a batch-response item with status `'success'` or `'conflict'` gets
its record's sync metadata updated, all its queue entries removed, and
`synced_items` incremented; a conflict additionally appends a non-fatal
note to the error list without touching `failed_items`, so a cycle whose
only non-success outcomes are conflicts ends with `success = true`. -/
theorem successConflict_path :
    (∀ (env : Env) (batch : List SyncQueueItem) (pi : ProcessedItem)
        (st : St),
      (∀ c, env.runFault c = none) →
      (pi.status = "success" ∨ pi.status = "conflict") →
      ∃ st', processItemE env batch pi st = .ok st' ∧
        st'.res.synced_items = st.res.synced_items + 1 ∧
        st'.res.failed_items = st.res.failed_items ∧
        (∀ e ∈ st'.db.sync_queue, e.task_id ≠ pi.client_id) ∧
        (∀ t ∈ st'.db.tasks, t.id = pi.client_id →
          t.sync_status = "synced" ∧ t.last_synced_at = some env.now) ∧
        (pi.status = "conflict" →
          st'.res.errors = st.res.errors ++
            [⟨pi.client_id, "sync",
              "Conflict resolved using last-write-wins", env.now⟩]) ∧
        (pi.status = "success" → st'.res.errors = st.res.errors)) ∧
    (∀ (env : Env) (s : DBState), env.allFault = none →
      (∀ c, env.runFault c = none) →
      (∀ b, ∃ r, env.post b = .ok r ∧
        ∀ pi ∈ r.processed_items,
          pi.status = "success" ∨ pi.status = "conflict") →
      ∃ st, sync env s = .ok st ∧
        st.res.success = true ∧ st.res.failed_items = 0) := by
  constructor
  · intro env batch pi st hR hs
    obtain ⟨st', heq, hsy, hf, _, hqn, _, htk, hcerr, hserr⟩ :=
      processItemE_success hR batch pi st hs
    exact ⟨st', heq, hsy, hf, hqn, htk, hcerr, hserr⟩
  · intro env s hA hR hpost
    exact sync_all_conflicts hA hR hpost s

/-- The batch response the conflict-only server returns. -/
def respConf : BatchSyncResponse :=
  ⟨[⟨"t1", some "srv1", "conflict", none, none⟩]⟩

/-- A fault-free environment whose server reports a conflict for every
submitted item. -/
def envConf : Env :=
  { batchSize := 50, now := 1000,
    post := fun _ => .ok respConf,
    health := .ok (),
    allFault := none,
    runFault := fun _ => none,
    getFault := fun _ => none }

/-- A database with one record and one due queue entry for it. -/
def dbConf : DBState := ⟨[tk1], [⟨"qc", "t1", "update", none, 1, 0, none⟩]⟩

/-- C5 (witness): the success/conflict theorem applied at the concrete
conflict-reporting environment. -/
theorem successConflict_path_witness :
    (∃ st', processItemE envConf []
        ⟨"t1", some "srv1", "conflict", none, none⟩ c8St = .ok st' ∧
      st'.res.synced_items = c8St.res.synced_items + 1) ∧
    (∃ st, sync envConf dbConf = .ok st ∧
      st.res.success = true ∧ st.res.failed_items = 0) := by
  refine ⟨?_, successConflict_path.2 envConf dbConf rfl (fun _ => rfl)
    (fun _ => ⟨respConf, rfl, by decide⟩)⟩
  obtain ⟨st', h, h1, _⟩ := successConflict_path.1 envConf []
    ⟨"t1", some "srv1", "conflict", none, none⟩ c8St
    (fun _ => rfl) (by decide)
  exact ⟨st', h, h1⟩

theorem mem_qUpd_ne {q : List SyncQueueItem} {row : SyncQueueItem}
    (hrow : row ∈ q) {eid : String} (hne : row.id ≠ eid) (n : Nat)
    (m : String) :
    row ∈ q.map fun e =>
      if e.id = eid then
        { e with retry_count := n, error_message := some m }
      else e := by
  have h2 := List.mem_map_of_mem
    (f := fun e : SyncQueueItem =>
      if e.id = eid then
        { e with retry_count := n, error_message := some m }
      else e) hrow
  simp only [] at h2
  rwa [if_neg hne] at h2

theorem mem_qUpd_eq {q : List SyncQueueItem} {row : SyncQueueItem}
    (hrow : row ∈ q) {eid : String} (heq : row.id = eid) (n : Nat)
    (m : String) :
    { row with retry_count := n, error_message := some m } ∈
      q.map fun e =>
        if e.id = eid then
          { e with retry_count := n, error_message := some m }
        else e := by
  have h2 := List.mem_map_of_mem
    (f := fun e : SyncQueueItem =>
      if e.id = eid then
        { e with retry_count := n, error_message := some m }
      else e) hrow
  simp only [] at h2
  rwa [if_pos heq] at h2

theorem catchBatchE_facts {env : Env} (hR : ∀ c, env.runFault c = none)
    (m : String) :
    ∀ (items : List SyncQueueItem) (st : St),
      items.Pairwise (fun a b => a.id ≠ b.id) →
      ∃ st', catchBatchE env m items st = .ok st' ∧
        st'.res.success = st.res.success ∧
        st'.res.synced_items = st.res.synced_items ∧
        st'.res.failed_items = st.res.failed_items + items.length ∧
        st'.db.sync_queue.length = st.db.sync_queue.length ∧
        (∀ row ∈ st.db.sync_queue, (∀ it ∈ items, row.id ≠ it.id) →
          row ∈ st'.db.sync_queue) ∧
        (∀ it ∈ items, ∀ row ∈ st.db.sync_queue, row.id = it.id →
          { row with retry_count := it.retry_count + 1,
                     error_message := some m } ∈ st'.db.sync_queue)
  | [], st, _ =>
      ⟨st, rfl, rfl, rfl, rfl, rfl, fun row hr _ => hr, by simp⟩
  | item :: rest, st, hnd => by
      rw [List.pairwise_cons] at hnd
      obtain ⟨hhead, hrest⟩ := hnd
      rw [catchBatchE, handleSyncErrorE_none hR, exceptBind_ok]
      obtain ⟨st', hst', hsucc, hsync, hfail, hlen, hframe, hbump⟩ :=
        catchBatchE_facts hR m rest _ hrest
      rw [hst']
      simp only [applyRun] at hframe hbump hlen
      simp only [] at hsucc hsync hfail hlen
      refine ⟨st', rfl, (by rw [hsucc]), (by rw [hsync]),
        (by rw [hfail, List.length_cons]; omega),
        (by rw [hlen]; simp), ?_, ?_⟩
      · intro row hrow hids
        have hne : row.id ≠ item.id :=
          hids item (List.mem_cons_self item rest)
        exact hframe row (mem_qUpd_ne hrow hne _ _)
          (fun it hit => hids it (List.mem_cons_of_mem item hit))
      · intro it hit row hrow hid
        rcases List.mem_cons.mp hit with rfl | hit2
        · refine hframe _ (mem_qUpd_eq hrow hid _ _) ?_
          intro it2 hit2b
          simp only []
          rw [hid]
          exact hhead it2 hit2b
        · have hne : row.id ≠ item.id := by
            rw [hid]
            exact fun hcontra => hhead it hit2 hcontra.symm
          exact hbump it hit2 row (mem_qUpd_ne hrow hne _ _) hid

theorem processBatchE_throw {env : Env} (hR : ∀ c, env.runFault c = none)
    (st : St) (batch : List SyncQueueItem) (m : String)
    (hp : env.post batch = .error m)
    (hnd : batch.Pairwise (fun a b => a.id ≠ b.id)) :
    ∃ st', processBatchE env st batch = .ok st' ∧
      st'.res.success = false ∧
      st'.res.synced_items = st.res.synced_items ∧
      st'.res.failed_items = st.res.failed_items + batch.length ∧
      st'.db.sync_queue.length = st.db.sync_queue.length ∧
      (∀ it ∈ batch, ∀ row ∈ st.db.sync_queue, row.id = it.id →
        { row with retry_count := it.retry_count + 1,
                   error_message := some m } ∈ st'.db.sync_queue) := by
  unfold processBatchE
  rw [hp]
  simp only []
  obtain ⟨st', hst', hsucc, hsync, hfail, hlen, _, hbump⟩ :=
    catchBatchE_facts hR m batch _ hnd
  rw [hst']
  simp only [] at hsucc hsync hfail hlen hbump
  exact ⟨st', rfl, (by rw [hsucc]), (by rw [hsync]),
    (by rw [hfail]), (by rw [hlen]), hbump⟩

/-- C6: when the batch submission itself throws, every entry of the batch
has its `retry_count` incremented by exactly one, `failed_items` grows by
the batch size, the result is flagged unsuccessful; and after all batches
(on any fault-free run) the overall result satisfies
`success = (failed_items == 0)`. -/
theorem batchFailure_path :
    (∀ (env : Env) (st : St) (batch : List SyncQueueItem) (m : String),
      (∀ c, env.runFault c = none) →
      env.post batch = .error m →
      batch.Pairwise (fun a b => a.id ≠ b.id) →
      ∃ st', processBatchE env st batch = .ok st' ∧
        st'.res.success = false ∧
        st'.res.failed_items = st.res.failed_items + batch.length ∧
        st'.db.sync_queue.length = st.db.sync_queue.length ∧
        (∀ it ∈ batch, ∀ row ∈ st.db.sync_queue, row.id = it.id →
          { row with retry_count := it.retry_count + 1,
                     error_message := some m } ∈ st'.db.sync_queue)) ∧
    (∀ (env : Env) (s : DBState), env.allFault = none →
      (∀ c, env.runFault c = none) →
      ∃ st, sync env s = .ok st ∧
        st.res.success = decide (st.res.failed_items = 0)) := by
  constructor
  · intro env st batch m hR hp hnd
    obtain ⟨st', h, h1, _, h3, h4, h5⟩ :=
      processBatchE_throw hR st batch m hp hnd
    exact ⟨st', h, h1, h3, h4, h5⟩
  · intro env s hA hR
    obtain ⟨st, h, _, hs⟩ := sync_none hA hR s
    exact ⟨st, h, hs⟩

/-- A due queue entry for record `t1`. -/
def e1 : SyncQueueItem := ⟨"e1", "t1", "create", none, 1, 0, none⟩

/-- A due queue entry for record `t2`. -/
def e2 : SyncQueueItem := ⟨"e2", "t2", "update", none, 2, 0, none⟩

/-- A database with two records and one due entry each. -/
def dbTwo : DBState := ⟨[tk1, tk2], [e1, e2]⟩

/-- The cycle state over `dbTwo` before any batch is processed. -/
def stTwo : St := ⟨dbTwo, initResult, []⟩

/-- C6 (witness): the batch-failure theorem at a concrete batch of two
entries whose submission throws — both retries bumped by one,
`failed_items = 0 + 2`, `success = false`. -/
theorem batchFailure_path_witness :
    (∃ st', processBatchE envOk stTwo [e1, e2] = .ok st' ∧
      st'.res.success = false ∧
      st'.res.failed_items = stTwo.res.failed_items + 2 ∧
      st'.db.sync_queue.length = stTwo.db.sync_queue.length ∧
      (∀ it ∈ [e1, e2], ∀ row ∈ stTwo.db.sync_queue, row.id = it.id →
        { row with retry_count := it.retry_count + 1,
                   error_message := some "network down" } ∈
          st'.db.sync_queue)) ∧
    (∃ st, sync envOk dbTwo = .ok st ∧
      st.res.success = decide (st.res.failed_items = 0)) :=
  ⟨batchFailure_path.1 envOk stTwo [e1, e2] "network down"
    (fun _ => rfl) rfl (by decide),
   batchFailure_path.2 envOk dbTwo rfl (fun _ => rfl)⟩

end SyncEngine
